import Mathlib

/-!
Shallow embedding of the transaction-assembly core of the proxy-dreps CLI
(`cli/src/main.rs`): value arithmetic, the quorum-rule codec, the
script-integrity hash builder, the four transaction builders and the
fee/execution-unit convergence engine.  External collaborators (the CBOR
codec, cryptographic hashes, the script evaluator, address parsing) are
passed in as explicit function arguments, mirroring their role as external
interfaces of the program.  Machine integers (`u64`) are modelled as `Nat`;
`f64` protocol prices are modelled as `ℚ` with explicit ceilings; code that
can panic is modelled as `Option`-returning.
-/

namespace PD

/-- Byte strings (`Vec<u8>` / `Bytes`): lists of bytes. -/
abbrev Bytes := List Nat

/-- 28-byte hash digests (`Hash<28>`), kept as their raw bytes. -/
abbrev Hash28 := Bytes

/-- 32-byte hash digests (`Hash<32>`), kept as their raw bytes. -/
abbrev Hash32 := Bytes

/-- Variable-length asset names (`AssetName`). -/
abbrev AssetName := Bytes

/-- `TransactionInput`: a (transaction id, output index) reference. -/
structure TransactionInput where
  transactionId : Hash32
  index : Nat
deriving DecidableEq, Repr

/-- Lexicographic byte-string comparison, the derived `Ord` on `Hash<32>`. -/
def bytesLt : Bytes → Bytes → Bool
  | [], [] => false
  | [], _ :: _ => true
  | _ :: _, [] => false
  | x :: xs, y :: ys => x < y || (x == y && bytesLt xs ys)

/-- The derived lexicographic `Ord` on `TransactionInput`:
compare transaction ids first, then indices. -/
def inputLe (a b : TransactionInput) : Bool :=
  bytesLt a.transactionId b.transactionId ||
    (a.transactionId == b.transactionId && a.index ≤ b.index)

/-- Stable insertion of one input into a list sorted by `inputLe`. -/
def insertInput (x : TransactionInput) : List TransactionInput → List TransactionInput
  | [] => [x]
  | y :: ys => if inputLe x y && !(inputLe y x && !decide (x = y)) then
      x :: y :: ys
    else y :: insertInput x ys

/-- `Vec::sort` on transaction inputs (stable, by the derived `Ord`). -/
def sortInputs : List TransactionInput → List TransactionInput
  | [] => []
  | x :: xs => insertInput x (sortInputs xs)

/-- A single-policy or multi-policy asset map (`Multiasset<T>`), as the
underlying key-value pair lists of `NonEmptyKeyValuePairs`. -/
abbrev Multiasset (α : Type) := List (Hash28 × List (AssetName × α))

/-- `Value`: a pure coin amount, or a coin amount plus a multi-asset map
with positive quantities. -/
inductive Value where
  | coin : Nat → Value
  | multiasset : Nat → Multiasset Nat → Value
deriving DecidableEq, Repr

/-- `lovelace_of`: the coin component of a value, for either representation. -/
def lovelace_of : Value → Nat
  | .coin lovelace => lovelace
  | .multiasset lovelace _ => lovelace

/-- `subtract`: `value - cost`, succeeding only when the coin component
strictly exceeds the cost; the multi-asset map is untouched. -/
def subtract (totalValue : Value) (totalCost : Nat) : Option Value :=
  match totalValue with
  | .coin total => if total > totalCost then some (.coin (total - totalCost)) else none
  | .multiasset total assets =>
      if total > totalCost then some (.multiasset (total - totalCost) assets) else none

/-- `singleton_assets`: a single-policy multi-asset map from a list of
(asset name, quantity) pairs. -/
def singleton_assets {α : Type} (validatorHash : Hash28) (assets : List (AssetName × α)) :
    Multiasset α :=
  [(validatorHash, assets)]

/-- `find_contract_token`: the first asset name of the first policy of a
multi-asset value; `none` for a pure coin value. -/
def find_contract_token : Value → Option AssetName
  | .coin _ => none
  | .multiasset _ assets =>
      match assets with
      | [] => none
      | (_, policyAssets) :: _ =>
          match policyAssets with
          | [] => none
          | (name, _) :: _ => some name

/-- `PlutusData` terms as constructed by the program: constructors with a
tag, arrays, byte strings and integers. -/
inductive PlutusData where
  | constr (tag : Nat) (anyConstructor : Option Nat) (fields : List PlutusData)
  | array (items : List PlutusData)
  | boundedBytes (bytes : Bytes)
  | bigInt (n : Int)

/-- `void()`: the unit Plutus term, constructor tag 121 with no fields. -/
def void : PlutusData := .constr 121 none []

/-- The `"gov_"` literal prefixed to the rule-term hash in asset names. -/
def govLiteral : Bytes := [103, 111, 118, 95]

/-- The structured rule term of `build_rules`: constructor tag 123 holding
the list of delegates, each wrapped in a tag-121 constructor around its
raw key-hash bytes. -/
def rulesTerm (delegates : List Hash28) : PlutusData :=
  .constr 123 none
    [.array (delegates.map fun delegate => .constr 121 none [.boundedBytes delegate])]

/-- `build_rules`: the quorum-rule codec.  Asserts `quorum ≤ |delegates|`
and that the delegate list is non-empty (panic modelled as `none`), then
returns the rule term together with the derived asset name
`"gov_" ++ hash_cbor(rules)`.  The CBOR-then-blake2b-224 hashing of a data
term is the external `Hasher::<224>::hash_cbor`, passed as `hashCbor`. -/
def build_rules (hashCbor : PlutusData → Bytes) (delegates : List Hash28) (quorum : Nat) :
    Option (PlutusData × AssetName) :=
  if quorum ≤ delegates.length ∧ delegates ≠ [] then
    let rules := rulesTerm delegates
    some (rules, govLiteral ++ hashCbor rules)
  else
    none

/-- Modelled from the spec: decoding one wrapped delegate of the rule term. -/
def decode_delegate : PlutusData → Option Hash28
  | .constr 121 _ [.boundedBytes delegate] => some delegate
  | _ => none

/-- Modelled from the spec: decoding the wrapped-delegate list of the rule
term. -/
def decode_delegates : List PlutusData → Option (List Hash28)
  | [] => some []
  | item :: rest =>
      match decode_delegate item, decode_delegates rest with
      | some d, some ds => some (d :: ds)
      | _, _ => none

/-- Modelled from the spec: `decode_rule_term`, the decoding direction of
the quorum-rule codec (spec section 8's round-trip property).  No decoder
exists in the source; this one inverts the term shape produced by
`build_rules`, recovering the delegate list.  The quorum is not present in
the term, so no decoder can recover it. -/
def decode_rule_term : PlutusData → Option (List Hash28)
  | .constr 123 _ [.array items] => decode_delegates items
  | _ => none

/-- Plutus `Language` versions. -/
inductive Language where
  | plutusV1
  | plutusV2
  | plutusV3
deriving DecidableEq, Repr

/-- The comparator passed to `sort_by` in `script_integrity_hash`: any
PlutusV3 entry sorts after everything else, V2 after V1 but before V3. -/
def languageCompare : Language → Language → Ordering
  | .plutusV3, .plutusV3 => .eq
  | .plutusV3, _ => .gt
  | _, .plutusV3 => .lt
  | .plutusV2, .plutusV2 => .eq
  | .plutusV2, _ => .gt
  | _, .plutusV2 => .lt
  | .plutusV1, .plutusV1 => .eq

/-- A (language, cost model) pair, the element of the language-views list. -/
abbrev LanguageView := Language × List Int

/-- Stable insertion of a language view into a list already sorted by the
language comparator: the new entry goes after entries it does not compare
strictly less than, as `Vec::sort_by` (a stable sort) arranges. -/
def insertView (x : LanguageView) : List LanguageView → List LanguageView
  | [] => [x]
  | y :: ys =>
      if languageCompare x.1 y.1 = .lt then x :: y :: ys else y :: insertView x ys

/-- `views.sort_by(...)` in `script_integrity_hash`: a stable sort of the
language views by `languageCompare` on the language. -/
def sortViews : List LanguageView → List LanguageView
  | [] => []
  | x :: xs => insertView x (sortViews xs)

/-- Redeemer purpose tags. -/
inductive RedeemerTag where
  | spend
  | mint
  | cert
  | reward
  | vote
  | propose
deriving DecidableEq, Repr

/-- Execution units of one redeemer. -/
structure ExUnits where
  mem : Nat
  steps : Nat
deriving DecidableEq, Repr

/-- `RedeemersKey`: (purpose tag, index within that purpose's collection). -/
structure RedeemersKey where
  tag : RedeemerTag
  index : Nat
deriving DecidableEq, Repr

/-- `RedeemersValue`: the attached data term and execution-unit budget. -/
structure RedeemersValue where
  data : PlutusData
  exUnits : ExUnits

/-- A redeemer collection (`NonEmptyKeyValuePairs<RedeemersKey, RedeemersValue>`). -/
abbrev Redeemers := List (RedeemersKey × RedeemersValue)

/-- A datum collection (`NonEmptyKeyValuePairs<Hash<32>, PlutusData>`). -/
abbrev Datums := List (Hash32 × PlutusData)

/-- `script_integrity_hash`: returns `none` when there is nothing to commit
to; otherwise serializes redeemers (if present), then datums (if present),
then the language views sorted by the fixed language order, concatenates
the three buffers and hashes them.  The CBOR encoders and the blake2b-256
hash are external collaborators, passed as functions. -/
def script_integrity_hash
    (hash : Bytes → Hash32)
    (encRedeemers : Redeemers → Bytes)
    (encDatums : Datums → Bytes)
    (encViews : List LanguageView → Bytes)
    (redeemers : Option Redeemers)
    (datums : Option Datums)
    (languageViews : List LanguageView) : Option Hash32 :=
  if redeemers.isNone && languageViews.isEmpty && datums.isNone then
    none
  else
    let preimage1 := match redeemers with
      | some rs => encRedeemers rs
      | none => []
    let preimage2 := match datums with
      | some ds => encDatums ds
      | none => []
    let preimage3 := if languageViews.isEmpty then [] else encViews (sortViews languageViews)
    some (hash (preimage1 ++ preimage2 ++ preimage3))

/-- Network discriminant of an address (`pallas_addresses::Network`). -/
inductive Network where
  | mainnet
  | testnet
  | other (tag : Nat)
deriving DecidableEq, Repr

/-- Ledger-level network id written into transaction bodies. -/
inductive NetworkId where
  | one
  | two
deriving DecidableEq, Repr

/-- `StakeCredential`: a key hash or a script hash. -/
inductive StakeCredential where
  | addrKeyhash (keyHash : Hash28)
  | scripthash (scriptHash : Hash28)
deriving DecidableEq, Repr

/-- `DRep`: a delegate-representative identifier. -/
inductive DRep where
  | key (keyHash : Hash28)
  | script (scriptHash : Hash28)
  | abstain
  | noConfidence
deriving DecidableEq, Repr

/-- `Anchor`: a rationale-document URL (kept as bytes) and its content hash. -/
structure Anchor where
  url : Bytes
  contentHash : Hash32
deriving DecidableEq, Repr

/-- The certificate kinds constructed by the program. -/
inductive Certificate where
  | voteRegDeleg (cred : StakeCredential) (drep : DRep) (deposit : Nat)
  | regDRepCert (cred : StakeCredential) (deposit : Nat) (anchor : Option Anchor)
  | unRegDRepCert (cred : StakeCredential) (deposit : Nat)
deriving DecidableEq, Repr

/-- A governance vote choice. -/
inductive Vote where
  | yes
  | no
  | abstain
deriving DecidableEq, Repr

/-- `GovActionId`: the proposal being voted on. -/
structure GovActionId where
  transactionId : Hash32
  actionIndex : Nat
deriving DecidableEq, Repr

/-- `VotingProcedure`: a vote choice plus an optional rationale anchor. -/
structure VotingProcedure where
  vote : Vote
  anchor : Option Anchor
deriving DecidableEq, Repr

/-- `Voter` identities; the program only ever constructs `drepScript`. -/
inductive Voter where
  | constitutionalCommitteeKey (h : Hash28)
  | constitutionalCommitteeScript (h : Hash28)
  | drepKey (h : Hash28)
  | drepScript (h : Hash28)
  | stakePoolKey (h : Hash28)
deriving DecidableEq, Repr

/-- `ShelleyPaymentPart` of an address. -/
inductive ShelleyPaymentPart where
  | key (keyHash : Hash28)
  | script (scriptHash : Hash28)
deriving DecidableEq, Repr

/-- `ShelleyDelegationPart` of an address. -/
inductive ShelleyDelegationPart where
  | key (keyHash : Hash28)
  | script (scriptHash : Hash28)
  | null
deriving DecidableEq, Repr

/-- A structured Shelley address (network, payment part, delegation part). -/
structure ShelleyAddress where
  network : Network
  payment : ShelleyPaymentPart
  delegation : ShelleyDelegationPart
deriving DecidableEq, Repr

/-- `PostAlonzoTransactionOutput`.  The program never populates the datum or
script-reference fields, so their payloads are not modelled. -/
structure PostAlonzoTransactionOutput where
  address : Bytes
  value : Value
  datumOption : Option Unit
  scriptRef : Option Unit
deriving DecidableEq, Repr

/-- `TransactionBody`, with every field of the source's
`default_transaction_body`.  Fields the program never populates
(`proposalProcedures`, `withdrawals`) carry no payload. -/
structure TransactionBody where
  auxiliaryDataHash : Option Bytes
  certificates : Option (List Certificate)
  collateral : Option (List TransactionInput)
  collateralReturn : Option PostAlonzoTransactionOutput
  donation : Option Nat
  fee : Nat
  inputs : List TransactionInput
  mint : Option (Multiasset Int)
  networkId : Option NetworkId
  outputs : List PostAlonzoTransactionOutput
  proposalProcedures : Option Unit
  referenceInputs : Option (List TransactionInput)
  requiredSigners : Option (List Hash28)
  scriptDataHash : Option Hash32
  totalCollateral : Option Nat
  treasuryValue : Option Nat
  ttl : Option Nat
  validityIntervalStart : Option Nat
  votingProcedures : Option (List (Voter × List (GovActionId × VotingProcedure)))
  withdrawals : Option Unit

/-- `WitnessSet`; only redeemers and the PlutusV3 script are ever set. -/
structure WitnessSet where
  bootstrapWitness : Option Unit
  nativeScript : Option Unit
  plutusData : Option Unit
  plutusV1Script : Option Unit
  plutusV2Script : Option Unit
  plutusV3Script : Option (List Bytes)
  redeemer : Option Redeemers
  vkeywitness : Option Unit

/-- `Tx`: body, witness set, success flag and auxiliary data. -/
structure Tx where
  transactionBody : TransactionBody
  transactionWitnessSet : WitnessSet
  success : Bool
  auxiliaryData : Option Unit

/-- `default_transaction_body`: every optional field unset. -/
def default_transaction_body : TransactionBody where
  auxiliaryDataHash := none
  certificates := none
  collateral := none
  collateralReturn := none
  donation := none
  fee := 0
  inputs := []
  mint := none
  networkId := none
  outputs := []
  proposalProcedures := none
  referenceInputs := none
  requiredSigners := none
  scriptDataHash := none
  totalCollateral := none
  treasuryValue := none
  ttl := none
  validityIntervalStart := none
  votingProcedures := none
  withdrawals := none

/-- `default_witness_set`: every field unset. -/
def default_witness_set : WitnessSet where
  bootstrapWitness := none
  nativeScript := none
  plutusData := none
  plutusV1Script := none
  plutusV2Script := none
  plutusV3Script := none
  redeemer := none
  vkeywitness := none

/-- `new_transaction_body`.  The callers always pass a non-empty collateral
list, so the non-emptiness refinement of `NonEmptySet` is not modelled. -/
def new_transaction_body
    (networkId : Network)
    (inputs : List TransactionInput)
    (referenceInputs : List TransactionInput)
    (outputs : List PostAlonzoTransactionOutput)
    (mint : Option (Multiasset Int))
    (certificates : List Certificate)
    (votes : List (Voter × List (GovActionId × VotingProcedure)))
    (collateralReturnTotal : List TransactionInput × PostAlonzoTransactionOutput × Nat)
    (fee : Nat)
    (extraSignatories : List Hash28)
    (scriptDataHash : Hash32) : TransactionBody :=
  let collateral := collateralReturnTotal.1
  let collateralReturn := collateralReturnTotal.2.1
  let totalCollateral := collateralReturnTotal.2.2
  { default_transaction_body with
    inputs := inputs
    referenceInputs := if referenceInputs.isEmpty then none else some referenceInputs
    outputs := outputs
    fee := fee
    requiredSigners := if extraSignatories.isEmpty then none else some extraSignatories
    mint := mint
    certificates := if certificates.isEmpty then none else some certificates
    votingProcedures := if votes.isEmpty then none else some votes
    collateral := some collateral
    collateralReturn := some collateralReturn
    totalCollateral := some totalCollateral
    networkId := some (match networkId with
      | .mainnet => NetworkId.two
      | _ => NetworkId.one)
    scriptDataHash := some scriptDataHash }

/-- `new_witness_set`: the redeemers plus the attached validator bytecode. -/
def new_witness_set (redeemers : Redeemers) (validator : Bytes) : WitnessSet :=
  { default_witness_set with
    redeemer := some redeemers
    plutusV3Script := some [validator] }

/-- Modelled from the spec: the protocol-parameter snapshot (spec section 3),
whose Rust definition lives in the `cardano` module that only `main.rs` is
available from.  Fields are exactly those `main.rs` reads.  The `f64` prices
and collateral percentage are modelled as rationals. -/
structure ProtocolParameters where
  feeConstant : Nat
  feeCoefficient : Nat
  priceMem : ℚ
  priceSteps : ℚ
  collateralPercent : ℚ
  minUtxoDepositCoefficient : Nat
  drepDeposit : Nat
  costModelV3 : List Int

/-- `f64::ceil` followed by the `as u64` cast (negatives saturate to zero). -/
def natCeil (q : ℚ) : Nat := (Int.ceil q).toNat

/-- `new_min_value_output`: build with a placeholder coin of 1, measure the
serialized size, and rebuild with `(size + 164) * per_byte` as the coin.
The CBOR encoder for outputs is external, passed as `encOutput`. -/
def new_min_value_output (encOutput : PostAlonzoTransactionOutput → Bytes)
    (perByte : Nat) (build : Nat → PostAlonzoTransactionOutput) :
    PostAlonzoTransactionOutput :=
  let value := build 1
  build (((encOutput value).length + 164) * perByte)

/-- The bundle of external collaborators (CBOR codec, hashes, script
evaluator, address codec) used by the builders and the engine. -/
structure Externals where
  hashCbor : PlutusData → Bytes
  hashBytes : Bytes → Hash32
  encOutput : PostAlonzoTransactionOutput → Bytes
  encRedeemers : Redeemers → Bytes
  encDatums : Datums → Bytes
  encViews : List LanguageView → Bytes
  encTx : Tx → Bytes
  evalTx : Bytes → List ExUnits
  encShelley : ShelleyAddress → Bytes
  parseShelley : Bytes → Option ShelleyAddress

/-- The builder closure of `assign_stake`: single fuel input, one change
output back to the fuel owner with delegation redirected to the same key,
one vote-registration-delegation certificate with the 2 000 000 deposit.
The `unreachable!` arms for non-Shelley or script-locked fuel addresses and
the `expect` on `subtract` are modelled as `none`. -/
def assign_stake_builder (ext : Externals) (validatorHash : Hash28)
    (fuel : TransactionInput) (fuelOutput : PostAlonzoTransactionOutput)
    (fee : Nat) (_exUnits : List ExUnits) : Option Tx :=
  let inputs := [fuel]
  match ext.parseShelley fuelOutput.address with
  | none => none
  | some src =>
    match src.payment with
    | .script _ => none
    | .key vkh =>
      let address : ShelleyAddress := ⟨src.network, src.payment, .key vkh⟩
      let totalCost := fee + 2000000
      match subtract fuelOutput.value totalCost with
      | none => none
      | some changeValue =>
        let outputs : List PostAlonzoTransactionOutput :=
          [{ address := ext.encShelley address, value := changeValue,
             datumOption := none, scriptRef := none }]
        let certificates :=
          [Certificate.voteRegDeleg (.addrKeyhash vkh) (.script validatorHash) 2000000]
        some
          { transactionBody :=
              { default_transaction_body with
                inputs := inputs, outputs := outputs, fee := fee,
                certificates := some certificates }
            transactionWitnessSet := default_witness_set
            success := true
            auxiliaryData := none }

/-- The builder closure of `delegate`: mints one state token named by
`build_rules`, produces the contract output and a change output, registers
the DRep with the protocol deposit, and attaches mint and certificate
redeemers.  Panicking paths (`assert!`, `expect`, `unwrap`, out-of-range
execution-unit indexing) are modelled as `none`. -/
def delegate_builder (ext : Externals) (networkId : Network) (validator : Bytes)
    (validatorHash : Hash28) (validatorAddress : Bytes) (params : ProtocolParameters)
    (administrators delegates : List Hash28) (quorum : Nat)
    (fuel : TransactionInput) (fuelOutput : PostAlonzoTransactionOutput)
    (fee : Nat) (exUnits : List ExUnits) : Option Tx :=
  match build_rules ext.hashCbor delegates quorum with
  | none => none
  | some (rules, assetName) =>
    let contractOutput := new_min_value_output ext.encOutput params.minUtxoDepositCoefficient
      fun lovelace =>
        { address := validatorAddress
          value := .multiasset lovelace (singleton_assets validatorHash [(assetName, 1)])
          datumOption := none, scriptRef := none }
    let totalCollateral := natCeil ((fee : ℚ) * params.collateralPercent)
    let inputs := [fuel]
    let totalCost := params.drepDeposit + lovelace_of contractOutput.value + fee
    match subtract fuelOutput.value totalCost with
    | none => none
    | some changeValue =>
    match subtract fuelOutput.value totalCollateral with
    | none => none
    | some collateralValue =>
    match exUnits[0]?, exUnits[1]? with
    | some exMint, some exCert =>
      let outputs : List PostAlonzoTransactionOutput :=
        [contractOutput,
         { address := fuelOutput.address, value := changeValue,
           datumOption := none, scriptRef := none }]
      let collateralReturn : PostAlonzoTransactionOutput :=
        { address := fuelOutput.address, value := collateralValue,
          datumOption := none, scriptRef := none }
      let mint := singleton_assets validatorHash [(assetName, (1 : Int))]
      let certificates :=
        [Certificate.regDRepCert (.scripthash validatorHash) params.drepDeposit none]
      let redeemers : Redeemers :=
        [(⟨.mint, 0⟩, ⟨void, exMint⟩), (⟨.cert, 0⟩, ⟨rules, exCert⟩)]
      match script_integrity_hash ext.hashBytes ext.encRedeemers ext.encDatums ext.encViews
        (some redeemers) none [(Language.plutusV3, params.costModelV3)] with
      | none => none
      | some sih =>
        some
          { transactionBody :=
              new_transaction_body networkId inputs [] outputs (some mint) certificates []
                ([fuel], collateralReturn, totalCollateral) fee administrators sih
            transactionWitnessSet := new_witness_set redeemers validator
            success := true
            auxiliaryData := none }
    | _, _ => none

/-- The builder closure of `redelegate`: spends the prior contract output
and the fuel input (sorted canonically), burns the old state token, mints
the new one, and re-registers the DRep with an unregister-then-register
certificate pair.  The spend redeemer index is found by searching the
sorted input list for the contract reference.  The `u64` subtraction
`lovelace_of(new) + fee - lovelace_of(old)` would underflow (and panic)
when the old contract output is larger, so that case is `none`. -/
def redelegate_builder (ext : Externals) (networkId : Network) (validator : Bytes)
    (validatorHash : Hash28) (validatorAddress : Bytes) (params : ProtocolParameters)
    (administrators delegates : List Hash28) (quorum : Nat)
    (contract fuel : TransactionInput)
    (contractOldOutput fuelOutput : PostAlonzoTransactionOutput)
    (fee : Nat) (exUnits : List ExUnits) : Option Tx :=
  match build_rules ext.hashCbor delegates quorum with
  | none => none
  | some (rules, newAssetName) =>
    match find_contract_token contractOldOutput.value with
    | none => none
    | some oldAssetName =>
    let contractNewOutput := new_min_value_output ext.encOutput params.minUtxoDepositCoefficient
      fun lovelace =>
        { address := validatorAddress
          value := .multiasset lovelace (singleton_assets validatorHash [(newAssetName, 1)])
          datumOption := none, scriptRef := none }
    let totalCollateral := natCeil ((fee : ℚ) * params.collateralPercent)
    let inputs := sortInputs [contract, fuel]
    if lovelace_of contractNewOutput.value + fee < lovelace_of contractOldOutput.value then
      none
    else
    let totalCost := lovelace_of contractNewOutput.value + fee
      - lovelace_of contractOldOutput.value
    let mint := singleton_assets validatorHash
      [(newAssetName, (1 : Int)), (oldAssetName, (-1 : Int))]
    match subtract fuelOutput.value totalCost with
    | none => none
    | some changeValue =>
    match subtract fuelOutput.value totalCollateral with
    | none => none
    | some collateralValue =>
    match List.findIdx? (fun i => i = contract) inputs with
    | none => none
    | some spendIndex =>
    match exUnits[0]?, exUnits[1]?, exUnits[2]?, exUnits[3]? with
    | some exMint, some exSpend, some exCertUnreg, some exCertReg =>
      let outputs : List PostAlonzoTransactionOutput :=
        [contractNewOutput,
         { address := fuelOutput.address, value := changeValue,
           datumOption := none, scriptRef := none }]
      let collateralReturn : PostAlonzoTransactionOutput :=
        { address := fuelOutput.address, value := collateralValue,
          datumOption := none, scriptRef := none }
      let certificates :=
        [Certificate.unRegDRepCert (.scripthash validatorHash) params.drepDeposit,
         Certificate.regDRepCert (.scripthash validatorHash) params.drepDeposit none]
      let redeemers : Redeemers :=
        [(⟨.mint, 0⟩, ⟨void, exMint⟩),
         (⟨.spend, spendIndex⟩, ⟨void, exSpend⟩),
         (⟨.cert, 0⟩, ⟨void, exCertUnreg⟩),
         (⟨.cert, 1⟩, ⟨rules, exCertReg⟩)]
      match script_integrity_hash ext.hashBytes ext.encRedeemers ext.encDatums ext.encViews
        (some redeemers) none [(Language.plutusV3, params.costModelV3)] with
      | none => none
      | some sih =>
        some
          { transactionBody :=
              new_transaction_body networkId inputs [] outputs (some mint) certificates []
                ([fuel], collateralReturn, totalCollateral) fee administrators sih
            transactionWitnessSet := new_witness_set redeemers validator
            success := true
            auxiliaryData := none }
    | _, _, _, _ => none

/-- The builder closure of `vote`: spends the fuel input, references the
contract output, records one (voter, proposal, choice, anchor) entry and
attaches one Vote-purpose redeemer carrying the recovered rules. -/
def vote_builder (ext : Externals) (networkId : Network) (validator : Bytes)
    (validatorHash : Hash28) (params : ProtocolParameters)
    (delegates : List Hash28) (choice : Vote) (anchor : Option Anchor)
    (proposalId : GovActionId) (rules : PlutusData)
    (contract fuel : TransactionInput) (fuelOutput : PostAlonzoTransactionOutput)
    (fee : Nat) (exUnits : List ExUnits) : Option Tx :=
  let inputs := [fuel]
  let referenceInputs := [contract]
  match subtract fuelOutput.value fee with
  | none => none
  | some changeValue =>
  let outputs : List PostAlonzoTransactionOutput :=
    [{ address := fuelOutput.address, value := changeValue,
       datumOption := none, scriptRef := none }]
  let totalCollateral := natCeil ((fee : ℚ) * params.collateralPercent)
  match subtract fuelOutput.value totalCollateral with
  | none => none
  | some collateralValue =>
  match exUnits[0]? with
  | none => none
  | some exVote =>
    let collateralReturn : PostAlonzoTransactionOutput :=
      { address := fuelOutput.address, value := collateralValue,
        datumOption := none, scriptRef := none }
    let votes := [(Voter.drepScript validatorHash,
      [(proposalId, VotingProcedure.mk choice anchor)])]
    let redeemers : Redeemers := [(⟨.vote, 0⟩, ⟨rules, exVote⟩)]
    match script_integrity_hash ext.hashBytes ext.encRedeemers ext.encDatums ext.encViews
      (some redeemers) none [(Language.plutusV3, params.costModelV3)] with
    | none => none
    | some sih =>
      some
        { transactionBody :=
            new_transaction_body networkId inputs referenceInputs outputs none [] votes
              ([fuel], collateralReturn, totalCollateral) fee delegates sih
          transactionWitnessSet := new_witness_set redeemers validator
          success := true
          auxiliaryData := none }

/-- `ResolvedInput`: an input reference together with its resolved output. -/
structure ResolvedInput where
  input : TransactionInput
  output : PostAlonzoTransactionOutput

/-- `empty_ex_units()`: four all-zero execution-unit slots. -/
def empty_ex_units : List ExUnits := [⟨0, 0⟩, ⟨0, 0⟩, ⟨0, 0⟩, ⟨0, 0⟩]

/-- `total_execution_cost`: fold over the execution-unit slots, adding the
ceilings of `price_mem * mem` and `price_steps * steps`. -/
def total_execution_cost (params : ProtocolParameters) (redeemers : List ExUnits) : Nat :=
  redeemers.foldl
    (fun acc e =>
      acc + natCeil (params.priceMem * (e.mem : ℚ)) + natCeil (params.priceSteps * (e.steps : ℚ)))
    0

/-- The signatory estimate of the engine: the number of inputs plus the
number of required extra signers of the built transaction. -/
def num_signatories (tx : Tx) : Nat :=
  tx.transactionBody.inputs.length +
    ((tx.transactionBody.requiredSigners.map List.length).getD 0)

/-- The engine's estimated fee:
`fee_constant + fee_coefficient * (5 + |ex_units|*16 + signatories*102 + |serialized|)
 + total_execution_cost`. -/
def estimated_fee (params : ProtocolParameters) (tx : Tx) (serializedLen : Nat)
    (exUnits : List ExUnits) : Nat :=
  params.feeConstant +
    params.feeCoefficient * (5 + exUnits.length * 16 + num_signatories tx * 102 + serializedLen) +
    total_execution_cost params exUnits

/-- The convergence engine's element-wise comparison
`calculated.iter().zip(ex_units).all(|(l, r)| l.eq(&r))`; like `zip`, it
truncates to the shorter list. -/
def zipAllEq (l r : List ExUnits) : Bool :=
  (l.zip r).all fun p => p.1 == p.2

/-- The engine's outcome: a converged transaction, or the fatal failure
after three attempts without convergence. -/
inductive BuildResult where
  | ok (tx : Tx)
  | didNotConverge

/-- One-step data of the engine, before iteration: current fee and the
execution units used to build.  The loop of `build_transaction`, with the
remaining attempt budget as the first argument; returns the number of
builder invocations made together with the outcome. -/
def build_transaction_go (params : ProtocolParameters) (resolvedInputs : List ResolvedInput)
    (encTx : Tx → Bytes) (evalTx : Bytes → List ExUnits) (w : Nat → List ExUnits → Tx) :
    Nat → Nat → List ExUnits → Nat × BuildResult
  | 0, _, _ => (0, .didNotConverge)
  | budget + 1, fee, exUnits =>
    let tx := w fee exUnits
    let serializedTx := encTx tx
    let calculated :=
      (if resolvedInputs.isEmpty then empty_ex_units else evalTx serializedTx) ++ empty_ex_units
    let est := estimated_fee params tx serializedTx.length exUnits
    if fee ≥ est ∧ zipAllEq calculated exUnits = true then
      (1, .ok tx)
    else
      let r := build_transaction_go params resolvedInputs encTx evalTx w budget est calculated
      (r.1 + 1, r.2)

/-- `build_transaction`: run the convergence loop from fee 0 and all-zero
execution units, with a hard budget of three attempts. -/
def build_transaction (params : ProtocolParameters) (resolvedInputs : List ResolvedInput)
    (encTx : Tx → Bytes) (evalTx : Bytes → List ExUnits) (w : Nat → List ExUnits → Tx) :
    BuildResult :=
  (build_transaction_go params resolvedInputs encTx evalTx w 3 0 empty_ex_units).2

/-- The number of convergence-loop iterations (builder invocations)
`build_transaction` performs. -/
def build_attempts (params : ProtocolParameters) (resolvedInputs : List ResolvedInput)
    (encTx : Tx → Bytes) (evalTx : Bytes → List ExUnits) (w : Nat → List ExUnits → Tx) :
    Nat :=
  (build_transaction_go params resolvedInputs encTx evalTx w 3 0 empty_ex_units).1

/-- The engine's initial state: fee 0, all-zero execution units. -/
def engine_start : Nat × List ExUnits := (0, empty_ex_units)

/-- The just-measured (and padded) execution units of the iteration that
builds from state `s`. -/
def engine_measured (resolvedInputs : List ResolvedInput) (encTx : Tx → Bytes)
    (evalTx : Bytes → List ExUnits) (w : Nat → List ExUnits → Tx)
    (s : Nat × List ExUnits) : List ExUnits :=
  (if resolvedInputs.isEmpty then empty_ex_units else evalTx (encTx (w s.1 s.2))) ++
    empty_ex_units

/-- The estimated fee of the iteration that builds from state `s`. -/
def engine_estimate (params : ProtocolParameters) (encTx : Tx → Bytes)
    (w : Nat → List ExUnits → Tx) (s : Nat × List ExUnits) : Nat :=
  estimated_fee params (w s.1 s.2) (encTx (w s.1 s.2)).length s.2

/-- The convergence test of the iteration that builds from state `s`: the
fee is at least the estimate, and the measured units agree element-wise
with the units used to build. -/
def engine_converged (params : ProtocolParameters) (resolvedInputs : List ResolvedInput)
    (encTx : Tx → Bytes) (evalTx : Bytes → List ExUnits) (w : Nat → List ExUnits → Tx)
    (s : Nat × List ExUnits) : Prop :=
  s.1 ≥ engine_estimate params encTx w s ∧
    zipAllEq (engine_measured resolvedInputs encTx evalTx w s) s.2 = true

instance (params : ProtocolParameters) (resolvedInputs : List ResolvedInput)
    (encTx : Tx → Bytes) (evalTx : Bytes → List ExUnits) (w : Nat → List ExUnits → Tx)
    (s : Nat × List ExUnits) :
    Decidable (engine_converged params resolvedInputs encTx evalTx w s) :=
  inferInstanceAs (Decidable (_ ∧ _))

/-- The state adopted when the iteration at state `s` does not converge:
the new estimated fee and the measured execution units. -/
def engine_step (params : ProtocolParameters) (resolvedInputs : List ResolvedInput)
    (encTx : Tx → Bytes) (evalTx : Bytes → List ExUnits) (w : Nat → List ExUnits → Tx)
    (s : Nat × List ExUnits) : Nat × List ExUnits :=
  (engine_estimate params encTx w s, engine_measured resolvedInputs encTx evalTx w s)

/-- Modelled from the spec: the estimated-fee formula as the claim words it,
with the 16-byte term counting the redeemers of the built transaction
instead of the execution-unit slots. -/
def claim_estimated_fee (params : ProtocolParameters) (tx : Tx) (serializedLen : Nat)
    (exUnits : List ExUnits) : Nat :=
  let redeemerCount := ((tx.transactionWitnessSet.redeemer.map List.length).getD 0)
  params.feeConstant +
    params.feeCoefficient * (5 + redeemerCount * 16 + num_signatories tx * 102 + serializedLen) +
    total_execution_cost params exUnits

/-- Modelled from the spec: the convergence loop exactly as
`build_transaction_go`, but computing `claim_estimated_fee`. -/
def claim_build_transaction_go (params : ProtocolParameters)
    (resolvedInputs : List ResolvedInput) (encTx : Tx → Bytes)
    (evalTx : Bytes → List ExUnits) (w : Nat → List ExUnits → Tx) :
    Nat → Nat → List ExUnits → Nat × BuildResult
  | 0, _, _ => (0, .didNotConverge)
  | budget + 1, fee, exUnits =>
    let tx := w fee exUnits
    let serializedTx := encTx tx
    let calculated :=
      (if resolvedInputs.isEmpty then empty_ex_units else evalTx serializedTx) ++ empty_ex_units
    let est := claim_estimated_fee params tx serializedTx.length exUnits
    if fee ≥ est ∧ zipAllEq calculated exUnits = true then
      (1, .ok tx)
    else
      let r := claim_build_transaction_go params resolvedInputs encTx evalTx w budget est calculated
      (r.1 + 1, r.2)

/-- Modelled from the spec: `build_transaction` with the claim's fee
formula. -/
def claim_build_transaction (params : ProtocolParameters)
    (resolvedInputs : List ResolvedInput) (encTx : Tx → Bytes)
    (evalTx : Bytes → List ExUnits) (w : Nat → List ExUnits → Tx) : BuildResult :=
  (claim_build_transaction_go params resolvedInputs encTx evalTx w 3 0 empty_ex_units).2

/-! ## Theorems -/

/-- The multi-asset map carried by a value, if any. -/
def assetsOf : Value → Option (Multiasset Nat)
  | .coin _ => none
  | .multiasset _ assets => some assets

/-- C6: `subtract` fails exactly when the coin component does not strictly
exceed the cost; on success the coin component is decreased by exactly the
cost and the multi-asset map is unchanged. -/
theorem subtract_exact (v : Value) (c : Nat) :
    (lovelace_of v ≤ c → subtract v c = none) ∧
    (c < lovelace_of v →
      ∃ v', subtract v c = some v' ∧ lovelace_of v' = lovelace_of v - c ∧
        assetsOf v' = assetsOf v) := by
  constructor
  · intro h
    cases v with
    | coin t => simp only [subtract, lovelace_of] at *; rw [if_neg (by omega)]
    | multiasset t assets => simp only [subtract, lovelace_of] at *; rw [if_neg (by omega)]
  · intro h
    cases v with
    | coin t =>
      simp only [subtract, lovelace_of] at *
      exact ⟨.coin (t - c), by rw [if_pos h], rfl, rfl⟩
    | multiasset t assets =>
      simp only [subtract, lovelace_of] at *
      exact ⟨.multiasset (t - c) assets, by rw [if_pos h], rfl, rfl⟩

/-- C6 witness: `subtract` at concrete values, both failing and succeeding. -/
theorem subtract_exact_witness :
    subtract (Value.coin 5) 7 = none ∧
    ∃ v', subtract (Value.multiasset 10 [([1], [([2], 3)])]) 4 = some v' ∧
      lovelace_of v' = 6 ∧ assetsOf v' = some [([1], [([2], 3)])] := by
  refine ⟨(subtract_exact (Value.coin 5) 7).1 (by decide), ?_⟩
  obtain ⟨v', hv, hl, ha⟩ :=
    (subtract_exact (Value.multiasset 10 [([1], [([2], 3)])]) 4).2 (by decide)
  exact ⟨v', hv, by rw [hl]; decide, by rw [ha]; rfl⟩

/-- C4: `build_rules` ignores the quorum entirely: for one delegate list
and any two valid quorums it returns the identical rule term and asset
name. -/
theorem build_rules_quorum_irrelevant
    (hashCbor : PlutusData → Bytes) (delegates : List Hash28) (q₁ q₂ : Nat)
    (h₁ : 1 ≤ q₁) (h₁' : q₁ ≤ delegates.length)
    (h₂ : 1 ≤ q₂) (h₂' : q₂ ≤ delegates.length)
    (hne : delegates ≠ []) :
    build_rules hashCbor delegates q₁ = build_rules hashCbor delegates q₂ := by
  unfold build_rules
  rw [if_pos ⟨h₁', hne⟩, if_pos ⟨h₂', hne⟩]

/-- C4 witness: two delegates, quorums 1 and 2. -/
theorem build_rules_quorum_irrelevant_witness :
    build_rules (fun _ => []) [List.replicate 28 1, List.replicate 28 2] 1 =
      build_rules (fun _ => []) [List.replicate 28 1, List.replicate 28 2] 2 :=
  build_rules_quorum_irrelevant (fun _ => []) [List.replicate 28 1, List.replicate 28 2]
    1 2 (by decide) (by decide) (by decide) (by decide) (by decide)

/-- C3 counterexample: the encodings of `(L, 1)` and `(L, 2)` coincide for
a two-delegate list, so no decoder can recover the quorum from the rule
term — the claim's round trip `decode(encode(L, q)) = (L, q)` is
impossible. -/
theorem rules_roundtrip_counterexample :
    build_rules (fun _ => []) [List.replicate 28 1, List.replicate 28 2] 1 =
      build_rules (fun _ => []) [List.replicate 28 1, List.replicate 28 2] 2 ∧
    (1 : Nat) ≠ 2 := by
  constructor
  · rfl
  · decide

theorem decode_rulesTerm (L : List Hash28) :
    decode_rule_term (rulesTerm L) = some L := by
  have hfold : ∀ M : List Hash28,
      decode_delegates
        (M.map fun delegate => PlutusData.constr 121 none [.boundedBytes delegate]) =
      some M := by
    intro M
    induction M with
    | nil => rfl
    | cons d M ih => simp only [List.map_cons, decode_delegates, decode_delegate, ih]
  simp only [decode_rule_term, rulesTerm, hfold]

/-- C3 (amended): the rule term encodes the delegate list (order
preserved) and nothing else; decoding recovers exactly the delegate list,
and the derived asset name is a pure function of the delegate list alone,
namely the `"gov_"` literal followed by the term hash. -/
theorem rules_roundtrip (hashCbor : PlutusData → Bytes) (L : List Hash28) (q : Nat)
    (hq : 1 ≤ q) (hq' : q ≤ L.length) (hne : L ≠ []) :
    build_rules hashCbor L q = some (rulesTerm L, govLiteral ++ hashCbor (rulesTerm L)) ∧
    decode_rule_term (rulesTerm L) = some L := by
  refine ⟨?_, decode_rulesTerm L⟩
  unfold build_rules
  rw [if_pos ⟨hq', hne⟩]

/-- C3 witness: the round trip at a concrete two-delegate list. -/
theorem rules_roundtrip_witness :
    build_rules (fun _ => [9]) [List.replicate 28 1, List.replicate 28 2] 2 =
      some (rulesTerm [List.replicate 28 1, List.replicate 28 2],
        govLiteral ++ [9]) ∧
    decode_rule_term (rulesTerm [List.replicate 28 1, List.replicate 28 2]) =
      some [List.replicate 28 1, List.replicate 28 2] :=
  rules_roundtrip (fun _ => [9]) [List.replicate 28 1, List.replicate 28 2] 2
    (by decide) (by decide) (by decide)

/-- The non-strict order induced by the language comparator. -/
abbrev langLe (a b : Language) : Prop := languageCompare a b ≠ .gt

/-- The strict order induced by the language comparator. -/
abbrev langLt (a b : Language) : Prop := languageCompare a b = .lt

theorem langLt_le : ∀ a b, langLt a b → langLe a b := by
  intro a b; cases a <;> cases b <;> decide

theorem langLe_trans : ∀ a b c, langLe a b → langLe b c → langLe a c := by
  intro a b c; cases a <;> cases b <;> cases c <;> decide

theorem langLe_of_not_lt : ∀ a b, ¬ langLt a b → langLe b a := by
  intro a b; cases a <;> cases b <;> decide

theorem langLt_of_le_ne : ∀ a b, langLe a b → a ≠ b → langLt a b := by
  intro a b; cases a <;> cases b <;> decide

theorem langLt_asymm : ∀ a b, langLt a b → langLt b a → False := by
  intro a b; cases a <;> cases b <;> decide

theorem insertView_perm (x : LanguageView) (l : List LanguageView) :
    List.Perm (insertView x l) (x :: l) := by
  induction l with
  | nil => exact List.Perm.refl _
  | cons y ys ih =>
    unfold insertView
    by_cases h : languageCompare x.1 y.1 = .lt
    · rw [if_pos h]
    · rw [if_neg h]
      exact (ih.cons y).trans (List.Perm.swap x y ys)

theorem sortViews_perm (l : List LanguageView) : List.Perm (sortViews l) l := by
  induction l with
  | nil => exact List.Perm.refl _
  | cons x xs ih => exact (insertView_perm x (sortViews xs)).trans (ih.cons x)

theorem insertView_pairwise (x : LanguageView) (l : List LanguageView)
    (h : l.Pairwise fun a b => langLe a.1 b.1) :
    (insertView x l).Pairwise fun a b => langLe a.1 b.1 := by
  induction l with
  | nil => simp [insertView]
  | cons y ys ih =>
    rw [List.pairwise_cons] at h
    obtain ⟨hy, hys⟩ := h
    unfold insertView
    by_cases hlt : languageCompare x.1 y.1 = .lt
    · rw [if_pos hlt]
      refine List.pairwise_cons.mpr ⟨?_, List.pairwise_cons.mpr ⟨hy, hys⟩⟩
      intro z hz
      rcases List.mem_cons.mp hz with rfl | hz'
      · exact langLt_le _ _ hlt
      · exact langLe_trans _ _ _ (langLt_le _ _ hlt) (hy z hz')
    · rw [if_neg hlt]
      refine List.pairwise_cons.mpr ⟨?_, ih hys⟩
      intro z hz
      rcases List.mem_cons.mp ((insertView_perm x ys).mem_iff.mp hz) with rfl | hz'
      · exact langLe_of_not_lt _ _ hlt
      · exact hy z hz'

theorem sortViews_pairwise (l : List LanguageView) :
    (sortViews l).Pairwise fun a b => langLe a.1 b.1 := by
  induction l with
  | nil => exact List.Pairwise.nil
  | cons x xs ih => exact insertView_pairwise x (sortViews xs) ih

theorem sortViews_eq_of_perm (l₁ l₂ : List LanguageView) (hp : List.Perm l₁ l₂)
    (hnd : (l₁.map Prod.fst).Nodup) : sortViews l₁ = sortViews l₂ := by
  have hp' : List.Perm (sortViews l₁) (sortViews l₂) :=
    (sortViews_perm l₁).trans (hp.trans (sortViews_perm l₂).symm)
  have hnd₂ : (l₂.map Prod.fst).Nodup := (hp.map Prod.fst).nodup_iff.mp hnd
  have hlt : ∀ l : List LanguageView, (l.map Prod.fst).Nodup →
      (sortViews l).Pairwise fun a b => langLt a.1 b.1 := by
    intro l hnl
    have h1 := sortViews_pairwise l
    have hnl' : ((sortViews l).map Prod.fst).Nodup :=
      ((sortViews_perm l).map Prod.fst).nodup_iff.mpr hnl
    have h2 : (sortViews l).Pairwise fun a b => a.1 ≠ b.1 := List.pairwise_map.mp hnl'
    exact (h1.and h2).imp fun hab => langLt_of_le_ne _ _ hab.1 hab.2
  haveI : IsAntisymm LanguageView fun a b => langLt a.1 b.1 :=
    ⟨fun a b h1 h2 => (langLt_asymm a.1 b.1 h1 h2).elim⟩
  exact List.eq_of_perm_of_sorted hp' (hlt l₁ hnd) (hlt l₂ hnd₂)

/-- C5: `script_integrity_hash` is invariant under permutation of the
language-view list, as long as no language occurs twice: the fixed sort
order is enforced regardless of input order. -/
theorem script_integrity_hash_perm
    (hash : Bytes → Hash32) (encR : Redeemers → Bytes) (encD : Datums → Bytes)
    (encV : List LanguageView → Bytes) (r : Option Redeemers) (d : Option Datums)
    (l₁ l₂ : List LanguageView) (hp : List.Perm l₁ l₂) (hnd : (l₁.map Prod.fst).Nodup) :
    script_integrity_hash hash encR encD encV r d l₁ =
      script_integrity_hash hash encR encD encV r d l₂ := by
  have hemp : l₁.isEmpty = l₂.isEmpty := by
    have hlen := hp.length_eq
    cases l₁ <;> cases l₂ <;> simp_all
  unfold script_integrity_hash
  rw [hemp, sortViews_eq_of_perm l₁ l₂ hp hnd]

/-- C5 witness: the three permutations of the spec's testable property,
checked here at one representative pair of distinct permutations. -/
theorem script_integrity_hash_perm_witness :
    script_integrity_hash (fun b => b) (fun _ => []) (fun _ => [])
      (fun l => l.map fun v => v.2.length) none none
      [(Language.plutusV1, [1]), (Language.plutusV2, [2]), (Language.plutusV3, [3])] =
    script_integrity_hash (fun b => b) (fun _ => []) (fun _ => [])
      (fun l => l.map fun v => v.2.length) none none
      [(Language.plutusV3, [3]), (Language.plutusV1, [1]), (Language.plutusV2, [2])] :=
  script_integrity_hash_perm (fun b => b) (fun _ => []) (fun _ => [])
    (fun l => l.map fun v => v.2.length) none none
    [(Language.plutusV1, [1]), (Language.plutusV2, [2]), (Language.plutusV3, [3])]
    [(Language.plutusV3, [3]), (Language.plutusV1, [1]), (Language.plutusV2, [2])]
    (by decide) (by decide)

/-- The contract output built through `new_min_value_output` by the
`delegate` and `redelegate` builders (used to state their shapes). -/
def contract_output_at (ext : Externals) (params : ProtocolParameters)
    (validatorAddress : Bytes) (validatorHash : Hash28) (assetName : AssetName) :
    PostAlonzoTransactionOutput :=
  new_min_value_output ext.encOutput params.minUtxoDepositCoefficient fun lovelace =>
    { address := validatorAddress
      value := .multiasset lovelace (singleton_assets validatorHash [(assetName, 1)])
      datumOption := none
      scriptRef := none }

theorem assign_stake_builder_some (ext : Externals) (validatorHash : Hash28)
    (fuel : TransactionInput) (fuelOutput : PostAlonzoTransactionOutput)
    (fee : Nat) (exUnits : List ExUnits) (tx : Tx)
    (h : assign_stake_builder ext validatorHash fuel fuelOutput fee exUnits = some tx) :
    ∃ src vkh changeValue,
      ext.parseShelley fuelOutput.address = some src ∧
      src.payment = .key vkh ∧
      subtract fuelOutput.value (fee + 2000000) = some changeValue ∧
      tx = { transactionBody :=
               { default_transaction_body with
                 inputs := [fuel]
                 outputs := [{ address := ext.encShelley ⟨src.network, src.payment, .key vkh⟩,
                               value := changeValue, datumOption := none, scriptRef := none }]
                 fee := fee
                 certificates := some [Certificate.voteRegDeleg (.addrKeyhash vkh)
                   (.script validatorHash) 2000000] }
             transactionWitnessSet := default_witness_set
             success := true
             auxiliaryData := none } := by
  simp only [assign_stake_builder] at h
  split at h
  · exact Option.noConfusion h
  next src hsrc =>
    split at h
    · exact Option.noConfusion h
    next vkh hvkh =>
      split at h
      · exact Option.noConfusion h
      next changeValue hchange =>
        exact ⟨src, vkh, changeValue, hsrc, hvkh, hchange, (Option.some.inj h).symm⟩

theorem delegate_builder_some (ext : Externals) (networkId : Network) (validator : Bytes)
    (validatorHash : Hash28) (validatorAddress : Bytes) (params : ProtocolParameters)
    (administrators delegates : List Hash28) (quorum : Nat)
    (fuel : TransactionInput) (fuelOutput : PostAlonzoTransactionOutput)
    (fee : Nat) (exUnits : List ExUnits) (tx : Tx)
    (h : delegate_builder ext networkId validator validatorHash validatorAddress params
      administrators delegates quorum fuel fuelOutput fee exUnits = some tx) :
    ∃ rules assetName changeValue collateralValue exMint exCert sih,
      build_rules ext.hashCbor delegates quorum = some (rules, assetName) ∧
      subtract fuelOutput.value
        (params.drepDeposit +
          lovelace_of (contract_output_at ext params validatorAddress validatorHash
            assetName).value + fee) = some changeValue ∧
      subtract fuelOutput.value (natCeil ((fee : ℚ) * params.collateralPercent)) =
        some collateralValue ∧
      exUnits[0]? = some exMint ∧ exUnits[1]? = some exCert ∧
      tx = { transactionBody :=
               new_transaction_body networkId [fuel] []
                 [contract_output_at ext params validatorAddress validatorHash assetName,
                  { address := fuelOutput.address, value := changeValue,
                    datumOption := none, scriptRef := none }]
                 (some (singleton_assets validatorHash [(assetName, (1 : Int))]))
                 [Certificate.regDRepCert (.scripthash validatorHash) params.drepDeposit none]
                 []
                 ([fuel],
                  { address := fuelOutput.address, value := collateralValue,
                    datumOption := none, scriptRef := none },
                  natCeil ((fee : ℚ) * params.collateralPercent))
                 fee administrators sih
             transactionWitnessSet :=
               new_witness_set
                 [(⟨.mint, 0⟩, ⟨void, exMint⟩), (⟨.cert, 0⟩, ⟨rules, exCert⟩)] validator
             success := true
             auxiliaryData := none } := by
  simp only [delegate_builder] at h
  split at h
  · exact Option.noConfusion h
  next rules assetName hrules =>
    split at h
    · exact Option.noConfusion h
    next changeValue hchange =>
      split at h
      · exact Option.noConfusion h
      next collateralValue hcoll =>
        split at h
        next exMint exCert h0 h1 =>
          split at h
          · exact Option.noConfusion h
          next sih hsih =>
            exact ⟨rules, assetName, changeValue, collateralValue, exMint, exCert, sih,
              hrules, hchange, hcoll, h0, h1, (Option.some.inj h).symm⟩
        all_goals exact Option.noConfusion h

theorem redelegate_builder_some (ext : Externals) (networkId : Network) (validator : Bytes)
    (validatorHash : Hash28) (validatorAddress : Bytes) (params : ProtocolParameters)
    (administrators delegates : List Hash28) (quorum : Nat)
    (contract fuel : TransactionInput)
    (contractOldOutput fuelOutput : PostAlonzoTransactionOutput)
    (fee : Nat) (exUnits : List ExUnits) (tx : Tx)
    (h : redelegate_builder ext networkId validator validatorHash validatorAddress params
      administrators delegates quorum contract fuel contractOldOutput fuelOutput fee
      exUnits = some tx) :
    ∃ rules newAssetName oldAssetName changeValue collateralValue spendIndex
      exMint exSpend exCertUnreg exCertReg sih,
      build_rules ext.hashCbor delegates quorum = some (rules, newAssetName) ∧
      find_contract_token contractOldOutput.value = some oldAssetName ∧
      List.findIdx? (fun i => i = contract) (sortInputs [contract, fuel]) = some spendIndex ∧
      subtract fuelOutput.value
        (lovelace_of (contract_output_at ext params validatorAddress validatorHash
            newAssetName).value + fee - lovelace_of contractOldOutput.value) =
        some changeValue ∧
      subtract fuelOutput.value (natCeil ((fee : ℚ) * params.collateralPercent)) =
        some collateralValue ∧
      exUnits[0]? = some exMint ∧ exUnits[1]? = some exSpend ∧
      exUnits[2]? = some exCertUnreg ∧ exUnits[3]? = some exCertReg ∧
      tx = { transactionBody :=
               new_transaction_body networkId (sortInputs [contract, fuel]) []
                 [contract_output_at ext params validatorAddress validatorHash newAssetName,
                  { address := fuelOutput.address, value := changeValue,
                    datumOption := none, scriptRef := none }]
                 (some (singleton_assets validatorHash
                   [(newAssetName, (1 : Int)), (oldAssetName, (-1 : Int))]))
                 [Certificate.unRegDRepCert (.scripthash validatorHash) params.drepDeposit,
                  Certificate.regDRepCert (.scripthash validatorHash) params.drepDeposit none]
                 []
                 ([fuel],
                  { address := fuelOutput.address, value := collateralValue,
                    datumOption := none, scriptRef := none },
                  natCeil ((fee : ℚ) * params.collateralPercent))
                 fee administrators sih
             transactionWitnessSet :=
               new_witness_set
                 [(⟨.mint, 0⟩, ⟨void, exMint⟩),
                  (⟨.spend, spendIndex⟩, ⟨void, exSpend⟩),
                  (⟨.cert, 0⟩, ⟨void, exCertUnreg⟩),
                  (⟨.cert, 1⟩, ⟨rules, exCertReg⟩)] validator
             success := true
             auxiliaryData := none } := by
  simp only [redelegate_builder] at h
  split at h
  · exact Option.noConfusion h
  next rules newAssetName hrules =>
    split at h
    · exact Option.noConfusion h
    next oldAssetName hold =>
      split at h
      · exact Option.noConfusion h
      next hnoUnderflow =>
        split at h
        · exact Option.noConfusion h
        next changeValue hchange =>
          split at h
          · exact Option.noConfusion h
          next collateralValue hcoll =>
            split at h
            · exact Option.noConfusion h
            next spendIndex hspend =>
              split at h
              next exMint exSpend exCertUnreg exCertReg h0 h1 h2 h3 =>
                split at h
                · exact Option.noConfusion h
                next sih hsih =>
                  exact ⟨rules, newAssetName, oldAssetName, changeValue, collateralValue,
                    spendIndex, exMint, exSpend, exCertUnreg, exCertReg, sih,
                    hrules, hold, hspend, hchange, hcoll, h0, h1, h2, h3,
                    (Option.some.inj h).symm⟩
              all_goals exact Option.noConfusion h

theorem vote_builder_some (ext : Externals) (networkId : Network) (validator : Bytes)
    (validatorHash : Hash28) (params : ProtocolParameters)
    (delegates : List Hash28) (choice : Vote) (anchor : Option Anchor)
    (proposalId : GovActionId) (rules : PlutusData)
    (contract fuel : TransactionInput) (fuelOutput : PostAlonzoTransactionOutput)
    (fee : Nat) (exUnits : List ExUnits) (tx : Tx)
    (h : vote_builder ext networkId validator validatorHash params delegates choice anchor
      proposalId rules contract fuel fuelOutput fee exUnits = some tx) :
    ∃ changeValue collateralValue exVote sih,
      subtract fuelOutput.value fee = some changeValue ∧
      subtract fuelOutput.value (natCeil ((fee : ℚ) * params.collateralPercent)) =
        some collateralValue ∧
      exUnits[0]? = some exVote ∧
      tx = { transactionBody :=
               new_transaction_body networkId [fuel] [contract]
                 [{ address := fuelOutput.address, value := changeValue,
                    datumOption := none, scriptRef := none }]
                 none []
                 [(Voter.drepScript validatorHash,
                   [(proposalId, VotingProcedure.mk choice anchor)])]
                 ([fuel],
                  { address := fuelOutput.address, value := collateralValue,
                    datumOption := none, scriptRef := none },
                  natCeil ((fee : ℚ) * params.collateralPercent))
                 fee delegates sih
             transactionWitnessSet :=
               new_witness_set [(⟨.vote, 0⟩, ⟨rules, exVote⟩)] validator
             success := true
             auxiliaryData := none } := by
  simp only [vote_builder] at h
  split at h
  · exact Option.noConfusion h
  next changeValue hchange =>
    split at h
    · exact Option.noConfusion h
    next collateralValue hcoll =>
      split at h
      · exact Option.noConfusion h
      next exVote h0 =>
        split at h
        · exact Option.noConfusion h
        next sih hsih =>
          exact ⟨changeValue, collateralValue, exVote, sih, hchange, hcoll, h0,
            (Option.some.inj h).symm⟩

theorem subtract_lovelace (v : Value) (c : Nat) (v' : Value)
    (h : subtract v c = some v') : lovelace_of v' = lovelace_of v - c := by
  cases v with
  | coin t =>
    simp only [subtract] at h
    split at h
    · cases Option.some.inj h; rfl
    · exact Option.noConfusion h
  | multiasset t assets =>
    simp only [subtract] at h
    split at h
    · cases Option.some.inj h; rfl
    · exact Option.noConfusion h

/-- C7: every transaction built by the `redelegate` builder sorts its
inputs canonically, and its Spend-purpose redeemer carries exactly the
position of the contract input inside that sorted list (found by searching
the sorted list), not its position in the call-argument order. -/
theorem redelegate_spend_redeemer_index (ext : Externals) (networkId : Network)
    (validator : Bytes) (validatorHash : Hash28) (validatorAddress : Bytes)
    (params : ProtocolParameters) (administrators delegates : List Hash28) (quorum : Nat)
    (contract fuel : TransactionInput)
    (contractOldOutput fuelOutput : PostAlonzoTransactionOutput)
    (fee : Nat) (exUnits : List ExUnits) (tx : Tx)
    (h : redelegate_builder ext networkId validator validatorHash validatorAddress params
      administrators delegates quorum contract fuel contractOldOutput fuelOutput fee
      exUnits = some tx) :
    tx.transactionBody.inputs = sortInputs [contract, fuel] ∧
    ∃ k, List.findIdx? (fun i => i = contract) (sortInputs [contract, fuel]) = some k ∧
      (∃ kv ∈ tx.transactionWitnessSet.redeemer.getD [],
        kv.1 = RedeemersKey.mk .spend k) ∧
      (∀ kv ∈ tx.transactionWitnessSet.redeemer.getD [],
        kv.1.tag = RedeemerTag.spend → kv.1.index = k) := by
  obtain ⟨rules, newAssetName, oldAssetName, changeValue, collateralValue, k,
    exMint, exSpend, exCertUnreg, exCertReg, sih, hrules, hold, hspend, hch, hco,
    h0, h1, h2, h3, htx⟩ :=
    redelegate_builder_some ext networkId validator validatorHash validatorAddress params
      administrators delegates quorum contract fuel contractOldOutput fuelOutput fee
      exUnits tx h
  subst htx
  refine ⟨by simp [new_transaction_body], k, hspend, ?_, ?_⟩
  · exact ⟨(⟨.spend, k⟩, ⟨void, exSpend⟩), by simp [new_witness_set], rfl⟩
  · intro kv hkv htag
    simp only [new_witness_set, default_witness_set, Option.getD_some, List.mem_cons,
      List.not_mem_nil, or_false] at hkv
    rcases hkv with rfl | rfl | rfl | rfl
    · simp at htag
    · rfl
    · simp at htag
    · simp at htag

/-- C8: every transaction built by the `redelegate` builder mints, under
the validator's single policy, exactly the new asset name with quantity +1
and the old state-token name with quantity -1, and its certificate list is
the unregister-then-register pair, in that order. -/
theorem redelegate_mint_burn_certs (ext : Externals) (networkId : Network)
    (validator : Bytes) (validatorHash : Hash28) (validatorAddress : Bytes)
    (params : ProtocolParameters) (administrators delegates : List Hash28) (quorum : Nat)
    (contract fuel : TransactionInput)
    (contractOldOutput fuelOutput : PostAlonzoTransactionOutput)
    (fee : Nat) (exUnits : List ExUnits) (tx : Tx)
    (h : redelegate_builder ext networkId validator validatorHash validatorAddress params
      administrators delegates quorum contract fuel contractOldOutput fuelOutput fee
      exUnits = some tx) :
    ∃ rules newAssetName oldAssetName,
      build_rules ext.hashCbor delegates quorum = some (rules, newAssetName) ∧
      find_contract_token contractOldOutput.value = some oldAssetName ∧
      tx.transactionBody.mint =
        some [(validatorHash, [(newAssetName, (1 : Int)), (oldAssetName, (-1 : Int))])] ∧
      tx.transactionBody.certificates =
        some [Certificate.unRegDRepCert (.scripthash validatorHash) params.drepDeposit,
              Certificate.regDRepCert (.scripthash validatorHash) params.drepDeposit none] := by
  obtain ⟨rules, newAssetName, oldAssetName, changeValue, collateralValue, k,
    exMint, exSpend, exCertUnreg, exCertReg, sih, hrules, hold, hspend, hch, hco,
    h0, h1, h2, h3, htx⟩ :=
    redelegate_builder_some ext networkId validator validatorHash validatorAddress params
      administrators delegates quorum contract fuel contractOldOutput fuelOutput fee
      exUnits tx h
  subst htx
  exact ⟨rules, newAssetName, oldAssetName, hrules, hold,
    by simp [new_transaction_body, singleton_assets],
    by simp [new_transaction_body]⟩

/-- C9 (amended): the `delegate`, `redelegate` and `vote` builders set the
total collateral to `ceil(fee * collateral_percent)` and the collateral
return to the fuel value minus that amount; the `assign_stake` builder
sets no collateral fields at all. -/
theorem builders_collateral :
    (∀ (ext : Externals) (networkId : Network) (validator : Bytes)
        (validatorHash : Hash28) (validatorAddress : Bytes) (params : ProtocolParameters)
        (administrators delegates : List Hash28) (quorum : Nat)
        (fuel : TransactionInput) (fuelOutput : PostAlonzoTransactionOutput)
        (fee : Nat) (exUnits : List ExUnits) (tx : Tx),
      delegate_builder ext networkId validator validatorHash validatorAddress params
          administrators delegates quorum fuel fuelOutput fee exUnits = some tx →
        tx.transactionBody.totalCollateral =
          some (natCeil ((fee : ℚ) * params.collateralPercent)) ∧
        ∃ v, subtract fuelOutput.value (natCeil ((fee : ℚ) * params.collateralPercent)) =
            some v ∧
          tx.transactionBody.collateralReturn =
            some { address := fuelOutput.address, value := v,
                   datumOption := none, scriptRef := none }) ∧
    (∀ (ext : Externals) (networkId : Network) (validator : Bytes)
        (validatorHash : Hash28) (validatorAddress : Bytes) (params : ProtocolParameters)
        (administrators delegates : List Hash28) (quorum : Nat)
        (contract fuel : TransactionInput)
        (contractOldOutput fuelOutput : PostAlonzoTransactionOutput)
        (fee : Nat) (exUnits : List ExUnits) (tx : Tx),
      redelegate_builder ext networkId validator validatorHash validatorAddress params
          administrators delegates quorum contract fuel contractOldOutput fuelOutput fee
          exUnits = some tx →
        tx.transactionBody.totalCollateral =
          some (natCeil ((fee : ℚ) * params.collateralPercent)) ∧
        ∃ v, subtract fuelOutput.value (natCeil ((fee : ℚ) * params.collateralPercent)) =
            some v ∧
          tx.transactionBody.collateralReturn =
            some { address := fuelOutput.address, value := v,
                   datumOption := none, scriptRef := none }) ∧
    (∀ (ext : Externals) (networkId : Network) (validator : Bytes)
        (validatorHash : Hash28) (params : ProtocolParameters)
        (delegates : List Hash28) (choice : Vote) (anchor : Option Anchor)
        (proposalId : GovActionId) (rules : PlutusData)
        (contract fuel : TransactionInput) (fuelOutput : PostAlonzoTransactionOutput)
        (fee : Nat) (exUnits : List ExUnits) (tx : Tx),
      vote_builder ext networkId validator validatorHash params delegates choice anchor
          proposalId rules contract fuel fuelOutput fee exUnits = some tx →
        tx.transactionBody.totalCollateral =
          some (natCeil ((fee : ℚ) * params.collateralPercent)) ∧
        ∃ v, subtract fuelOutput.value (natCeil ((fee : ℚ) * params.collateralPercent)) =
            some v ∧
          tx.transactionBody.collateralReturn =
            some { address := fuelOutput.address, value := v,
                   datumOption := none, scriptRef := none }) ∧
    (∀ (ext : Externals) (validatorHash : Hash28)
        (fuel : TransactionInput) (fuelOutput : PostAlonzoTransactionOutput)
        (fee : Nat) (exUnits : List ExUnits) (tx : Tx),
      assign_stake_builder ext validatorHash fuel fuelOutput fee exUnits = some tx →
        tx.transactionBody.totalCollateral = none ∧
        tx.transactionBody.collateralReturn = none ∧
        tx.transactionBody.collateral = none) := by
  refine ⟨?_, ?_, ?_, ?_⟩
  · intro ext networkId validator validatorHash validatorAddress params administrators
      delegates quorum fuel fuelOutput fee exUnits tx h
    obtain ⟨rules, assetName, changeValue, collateralValue, exMint, exCert, sih,
      hrules, hchange, hcoll, h0, h1, htx⟩ :=
      delegate_builder_some ext networkId validator validatorHash validatorAddress params
        administrators delegates quorum fuel fuelOutput fee exUnits tx h
    subst htx
    exact ⟨by simp [new_transaction_body], collateralValue, hcoll,
      by simp [new_transaction_body]⟩
  · intro ext networkId validator validatorHash validatorAddress params administrators
      delegates quorum contract fuel contractOldOutput fuelOutput fee exUnits tx h
    obtain ⟨rules, newAssetName, oldAssetName, changeValue, collateralValue, k,
      exMint, exSpend, exCertUnreg, exCertReg, sih, hrules, hold, hspend, hch, hco,
      h0, h1, h2, h3, htx⟩ :=
      redelegate_builder_some ext networkId validator validatorHash validatorAddress params
        administrators delegates quorum contract fuel contractOldOutput fuelOutput fee
        exUnits tx h
    subst htx
    exact ⟨by simp [new_transaction_body], collateralValue, hco,
      by simp [new_transaction_body]⟩
  · intro ext networkId validator validatorHash params delegates choice anchor proposalId
      rules contract fuel fuelOutput fee exUnits tx h
    obtain ⟨changeValue, collateralValue, exVote, sih, hchange, hcoll, h0, htx⟩ :=
      vote_builder_some ext networkId validator validatorHash params delegates choice anchor
        proposalId rules contract fuel fuelOutput fee exUnits tx h
    subst htx
    exact ⟨by simp [new_transaction_body], collateralValue, hcoll,
      by simp [new_transaction_body]⟩
  · intro ext validatorHash fuel fuelOutput fee exUnits tx h
    obtain ⟨src, vkh, changeValue, hsrc, hvkh, hchange, htx⟩ :=
      assign_stake_builder_some ext validatorHash fuel fuelOutput fee exUnits tx h
    subst htx
    exact ⟨rfl, rfl, rfl⟩

/-- C10: an `assign_stake` build from a fuel UTxO holding exactly
10 000 000 lovelace at fee 170 000 has a single change output holding
exactly 10 000 000 - 170 000 - 2 000 000 and exactly one certificate, a
vote-registration-delegation with the 2 000 000 deposit. -/
theorem assign_stake_example (ext : Externals) (validatorHash : Hash28)
    (fuel : TransactionInput) (fuelOutput : PostAlonzoTransactionOutput)
    (exUnits : List ExUnits) (tx : Tx)
    (hlv : lovelace_of fuelOutput.value = 10000000)
    (h : assign_stake_builder ext validatorHash fuel fuelOutput 170000 exUnits = some tx) :
    tx.transactionBody.outputs.map (fun o => lovelace_of o.value) =
      [10000000 - 170000 - 2000000] ∧
    ∃ vkh, tx.transactionBody.certificates =
      some [Certificate.voteRegDeleg (.addrKeyhash vkh) (.script validatorHash) 2000000] := by
  obtain ⟨src, vkh, changeValue, hsrc, hvkh, hchange, htx⟩ :=
    assign_stake_builder_some ext validatorHash fuel fuelOutput 170000 exUnits tx h
  subst htx
  have hlv' := subtract_lovelace _ _ _ hchange
  rw [hlv] at hlv'
  refine ⟨?_, vkh, rfl⟩
  simp only [List.map_cons, List.map_nil, hlv']

theorem go_succ_conv (params : ProtocolParameters) (resolvedInputs : List ResolvedInput)
    (encTx : Tx → Bytes) (evalTx : Bytes → List ExUnits) (w : Nat → List ExUnits → Tx)
    (budget fee : Nat) (exUnits : List ExUnits)
    (h : engine_converged params resolvedInputs encTx evalTx w (fee, exUnits)) :
    build_transaction_go params resolvedInputs encTx evalTx w (budget + 1) fee exUnits =
      (1, .ok (w fee exUnits)) := by
  have h' : fee ≥ estimated_fee params (w fee exUnits) (encTx (w fee exUnits)).length exUnits ∧
      zipAllEq ((if resolvedInputs.isEmpty then empty_ex_units
        else evalTx (encTx (w fee exUnits))) ++ empty_ex_units) exUnits = true := h
  simp only [build_transaction_go]
  rw [if_pos h']

theorem go_succ_not_conv (params : ProtocolParameters) (resolvedInputs : List ResolvedInput)
    (encTx : Tx → Bytes) (evalTx : Bytes → List ExUnits) (w : Nat → List ExUnits → Tx)
    (budget fee : Nat) (exUnits : List ExUnits)
    (h : ¬ engine_converged params resolvedInputs encTx evalTx w (fee, exUnits)) :
    build_transaction_go params resolvedInputs encTx evalTx w (budget + 1) fee exUnits =
      ((build_transaction_go params resolvedInputs encTx evalTx w budget
          (engine_step params resolvedInputs encTx evalTx w (fee, exUnits)).1
          (engine_step params resolvedInputs encTx evalTx w (fee, exUnits)).2).1 + 1,
       (build_transaction_go params resolvedInputs encTx evalTx w budget
          (engine_step params resolvedInputs encTx evalTx w (fee, exUnits)).1
          (engine_step params resolvedInputs encTx evalTx w (fee, exUnits)).2).2) := by
  have h' : ¬ (fee ≥ estimated_fee params (w fee exUnits)
        (encTx (w fee exUnits)).length exUnits ∧
      zipAllEq ((if resolvedInputs.isEmpty then empty_ex_units
        else evalTx (encTx (w fee exUnits))) ++ empty_ex_units) exUnits = true) := h
  simp only [build_transaction_go]
  rw [if_neg h']
  rfl

/-- C1 (amended): the convergence engine starts from fee 0 and all-zero
execution units, recomputes the estimated fee and the measured execution
units of each iteration (`engine_estimate` / `engine_measured`, with the
16-byte headroom term counting execution-unit slots), stops at the first
of its at most three iterations whose convergence test passes, returns
exactly the transaction built by that final iteration, and fails after
three non-converged iterations. -/
theorem build_transaction_characterization (params : ProtocolParameters)
    (resolvedInputs : List ResolvedInput) (encTx : Tx → Bytes)
    (evalTx : Bytes → List ExUnits) (w : Nat → List ExUnits → Tx) :
    build_transaction params resolvedInputs encTx evalTx w =
      (if engine_converged params resolvedInputs encTx evalTx w engine_start then
        .ok (w engine_start.1 engine_start.2)
      else if engine_converged params resolvedInputs encTx evalTx w
          (engine_step params resolvedInputs encTx evalTx w engine_start) then
        .ok (w (engine_step params resolvedInputs encTx evalTx w engine_start).1
              (engine_step params resolvedInputs encTx evalTx w engine_start).2)
      else if engine_converged params resolvedInputs encTx evalTx w
          (engine_step params resolvedInputs encTx evalTx w
            (engine_step params resolvedInputs encTx evalTx w engine_start)) then
        .ok (w (engine_step params resolvedInputs encTx evalTx w
                  (engine_step params resolvedInputs encTx evalTx w engine_start)).1
              (engine_step params resolvedInputs encTx evalTx w
                  (engine_step params resolvedInputs encTx evalTx w engine_start)).2)
      else .didNotConverge) := by
  have hs : engine_start = ((0 : Nat), empty_ex_units) := rfl
  by_cases h0 : engine_converged params resolvedInputs encTx evalTx w engine_start
  · rw [if_pos h0]
    unfold build_transaction
    rw [show (3 : Nat) = 2 + 1 from rfl,
      go_succ_conv params resolvedInputs encTx evalTx w 2 0 empty_ex_units (hs ▸ h0)]
    rfl
  · rw [if_neg h0]
    unfold build_transaction
    rw [show (3 : Nat) = 2 + 1 from rfl,
      go_succ_not_conv params resolvedInputs encTx evalTx w 2 0 empty_ex_units (hs ▸ h0)]
    by_cases h1 : engine_converged params resolvedInputs encTx evalTx w
        (engine_step params resolvedInputs encTx evalTx w engine_start)
    · rw [if_pos h1]
      rw [show (2 : Nat) = 1 + 1 from rfl,
        go_succ_conv params resolvedInputs encTx evalTx w 1 _ _ (by rw [← hs]; exact h1)]
      rfl
    · rw [if_neg h1]
      rw [show (2 : Nat) = 1 + 1 from rfl,
        go_succ_not_conv params resolvedInputs encTx evalTx w 1 _ _ (by rw [← hs]; exact h1)]
      by_cases h2 : engine_converged params resolvedInputs encTx evalTx w
          (engine_step params resolvedInputs encTx evalTx w
            (engine_step params resolvedInputs encTx evalTx w engine_start))
      · rw [if_pos h2]
        rw [show (1 : Nat) = 0 + 1 from rfl,
          go_succ_conv params resolvedInputs encTx evalTx w 0 _ _ (by rw [← hs]; exact h2)]
        rfl
      · rw [if_neg h2]
        rw [show (1 : Nat) = 0 + 1 from rfl,
          go_succ_not_conv params resolvedInputs encTx evalTx w 0 _ _ (by rw [← hs]; exact h2)]
        rfl

/-- C2: the convergence engine is total, makes at most three builder
invocations, and returns no transaction exactly when all three iterations
fail the convergence test — in which case it has made exactly three
attempts. -/
theorem build_transaction_three_attempts (params : ProtocolParameters)
    (resolvedInputs : List ResolvedInput) (encTx : Tx → Bytes)
    (evalTx : Bytes → List ExUnits) (w : Nat → List ExUnits → Tx) :
    build_attempts params resolvedInputs encTx evalTx w ≤ 3 ∧
    (build_transaction params resolvedInputs encTx evalTx w = .didNotConverge →
      build_attempts params resolvedInputs encTx evalTx w = 3) := by
  have hs : engine_start = ((0 : Nat), empty_ex_units) := rfl
  unfold build_attempts build_transaction
  by_cases h0 : engine_converged params resolvedInputs encTx evalTx w engine_start
  · rw [show (3 : Nat) = 2 + 1 from rfl,
      go_succ_conv params resolvedInputs encTx evalTx w 2 0 empty_ex_units (hs ▸ h0)]
    exact ⟨by norm_num, fun h => BuildResult.noConfusion h⟩
  · rw [show (3 : Nat) = 2 + 1 from rfl,
      go_succ_not_conv params resolvedInputs encTx evalTx w 2 0 empty_ex_units (hs ▸ h0)]
    by_cases h1 : engine_converged params resolvedInputs encTx evalTx w
        (engine_step params resolvedInputs encTx evalTx w engine_start)
    · rw [show (2 : Nat) = 1 + 1 from rfl,
        go_succ_conv params resolvedInputs encTx evalTx w 1 _ _ (by rw [← hs]; exact h1)]
      exact ⟨by norm_num, fun h => BuildResult.noConfusion h⟩
    · rw [show (2 : Nat) = 1 + 1 from rfl,
        go_succ_not_conv params resolvedInputs encTx evalTx w 1 _ _ (by rw [← hs]; exact h1)]
      by_cases h2 : engine_converged params resolvedInputs encTx evalTx w
          (engine_step params resolvedInputs encTx evalTx w
            (engine_step params resolvedInputs encTx evalTx w engine_start))
      · rw [show (1 : Nat) = 0 + 1 from rfl,
          go_succ_conv params resolvedInputs encTx evalTx w 0 _ _ (by rw [← hs]; exact h2)]
        exact ⟨by norm_num, fun h => BuildResult.noConfusion h⟩
      · rw [show (1 : Nat) = 0 + 1 from rfl,
          go_succ_not_conv params resolvedInputs encTx evalTx w 0 _ _ (by rw [← hs]; exact h2)]
        exact ⟨by simp [build_transaction_go], fun _ => rfl⟩

theorem natCeil_zero : natCeil 0 = 0 := by simp [natCeil]

/-! Concrete environments for the closed instantiations below. -/

/-- A transaction carrying only a fee (the builder used by the concrete
engine runs below). -/
def txWithFee (fee : Nat) : Tx where
  transactionBody := { default_transaction_body with fee := fee }
  transactionWitnessSet := default_witness_set
  success := true
  auxiliaryData := none

/-- A builder that records the fee it is given. -/
def wFee : Nat → List ExUnits → Tx := fun fee _ => txWithFee fee

/-- A serializer producing no bytes. -/
def encNil : Tx → Bytes := fun _ => []

/-- An evaluator measuring no redeemers. -/
def evNil : Bytes → List ExUnits := fun _ => []

/-- Parameters with fee coefficient 1 and everything else trivial. -/
def pFee : ProtocolParameters where
  feeConstant := 0
  feeCoefficient := 1
  priceMem := 0
  priceSteps := 0
  collateralPercent := 0
  minUtxoDepositCoefficient := 1
  drepDeposit := 2000000
  costModelV3 := []

/-- C1 counterexample: with a redeemer-free builder, an empty serializer
and fee coefficient 1, the engine's 16-byte headroom term counts the four
(later eight) execution-unit slots, not the zero redeemers of the built
transaction: the code computes an estimate of 69 where the claim's formula
gives 5, and the converged fee is 133 where the claim's loop would settle
at 5. -/
theorem convergence_fee_formula_counterexample :
    estimated_fee pFee (txWithFee 0) 0 empty_ex_units = 69 ∧
    claim_estimated_fee pFee (txWithFee 0) 0 empty_ex_units = 5 ∧
    build_transaction pFee [] encNil evNil wFee = .ok (txWithFee 133) ∧
    claim_build_transaction pFee [] encNil evNil wFee = .ok (txWithFee 5) ∧
    (133 : Nat) ≠ 5 := by
  refine ⟨?_, ?_, ?_, ?_, by decide⟩
  · simp [estimated_fee, total_execution_cost, num_signatories, empty_ex_units,
      txWithFee, default_transaction_body, default_witness_set, pFee, natCeil_zero]
  · simp [claim_estimated_fee, total_execution_cost, num_signatories, empty_ex_units,
      txWithFee, default_transaction_body, default_witness_set, pFee, natCeil_zero]
  · simp [build_transaction, build_transaction_go, estimated_fee, total_execution_cost,
      empty_ex_units, zipAllEq, num_signatories, txWithFee, wFee, encNil, evNil, pFee,
      default_transaction_body, default_witness_set, natCeil_zero]
  · simp [claim_build_transaction, claim_build_transaction_go, claim_estimated_fee,
      total_execution_cost, empty_ex_units, zipAllEq, num_signatories, txWithFee, wFee,
      encNil, evNil, pFee, default_transaction_body, default_witness_set, natCeil_zero]

/-- Parameters making the estimate grow forever when the serialized length
tracks the fee. -/
def pDiv : ProtocolParameters where
  feeConstant := 1
  feeCoefficient := 1
  priceMem := 0
  priceSteps := 0
  collateralPercent := 0
  minUtxoDepositCoefficient := 1
  drepDeposit := 2000000
  costModelV3 := []

/-- A serializer whose output length equals the declared fee, so the fee
estimate can never be reached. -/
def encFee : Tx → Bytes := fun tx => List.replicate tx.transactionBody.fee 0

/-- C2 witness: a diverging builder environment runs exactly three
attempts and returns no transaction. -/
theorem build_transaction_three_attempts_witness :
    build_transaction pDiv [] encFee evNil wFee = .didNotConverge ∧
    build_attempts pDiv [] encFee evNil wFee = 3 := by
  have hdnc : build_transaction pDiv [] encFee evNil wFee = .didNotConverge := by
    simp [build_transaction, build_transaction_go, estimated_fee, total_execution_cost,
      empty_ex_units, zipAllEq, num_signatories, txWithFee, wFee, encFee, evNil, pDiv,
      default_transaction_body, default_witness_set, natCeil_zero]
  exact ⟨hdnc, (build_transaction_three_attempts pDiv [] encFee evNil wFee).2 hdnc⟩

/-- External collaborators with trivial codecs and hashes, for the
concrete builder runs below. -/
def extEx : Externals where
  hashCbor := fun _ => [9]
  hashBytes := fun b => b
  encOutput := fun _ => []
  encRedeemers := fun _ => []
  encDatums := fun _ => []
  encViews := fun _ => []
  encTx := fun _ => []
  evalTx := fun _ => []
  encShelley := fun _ => [0]
  parseShelley := fun _ => some ⟨.testnet, .key [7], .null⟩

/-- Parameters with zero prices and collateral percentage, for the
concrete builder runs below. -/
def pZero : ProtocolParameters where
  feeConstant := 0
  feeCoefficient := 0
  priceMem := 0
  priceSteps := 0
  collateralPercent := 0
  minUtxoDepositCoefficient := 1
  drepDeposit := 2000000
  costModelV3 := [0]

/-- A concrete fuel input whose transaction id sorts before the contract's. -/
def fuelEx : TransactionInput := ⟨[1], 0⟩

/-- A concrete contract input whose transaction id sorts after the fuel's. -/
def contractEx : TransactionInput := ⟨[2], 0⟩

/-- A concrete resolved fuel output holding 10 000 000 lovelace. -/
def fuelOutEx : PostAlonzoTransactionOutput := ⟨[4], .coin 10000000, none, none⟩

/-- A concrete resolved contract output carrying one state token. -/
def contractOldOutEx : PostAlonzoTransactionOutput :=
  ⟨[3], .multiasset 100 [([5], [([7], 1)])], none, none⟩

/-- C7 witness: a concrete redelegation whose contract input lands at
position 1 of the sorted inputs (though it is argument 0), and whose spend
redeemer accordingly carries index 1. -/
theorem redelegate_spend_redeemer_index_witness :
    ∃ tx, redelegate_builder extEx .testnet [1] [5] [2] pZero [] [[1]] 1
        contractEx fuelEx contractOldOutEx fuelOutEx 1000 empty_ex_units = some tx ∧
      tx.transactionBody.inputs = [fuelEx, contractEx] ∧
      List.findIdx? (fun i => i = contractEx) tx.transactionBody.inputs = some 1 ∧
      ∀ kv ∈ tx.transactionWitnessSet.redeemer.getD [],
        kv.1.tag = RedeemerTag.spend → kv.1.index = 1 := by
  have hsort : sortInputs [contractEx, fuelEx] = [fuelEx, contractEx] := by decide
  have hfind2 : List.findIdx? (fun i => i = contractEx) [fuelEx, contractEx] = some 1 := by
    decide
  have hsome : (redelegate_builder extEx .testnet [1] [5] [2] pZero [] [[1]] 1
      contractEx fuelEx contractOldOutEx fuelOutEx 1000 empty_ex_units).isSome = true := by
    simp [redelegate_builder, build_rules, rulesTerm, find_contract_token, contractOldOutEx,
      fuelOutEx, new_min_value_output, extEx, pZero, natCeil_zero, lovelace_of, subtract,
      hsort, hfind2, empty_ex_units, script_integrity_hash, contract_output_at]
  obtain ⟨tx, htx⟩ := Option.isSome_iff_exists.mp hsome
  obtain ⟨hinputs, k, hk, hmem, hall⟩ :=
    redelegate_spend_redeemer_index extEx .testnet [1] [5] [2] pZero [] [[1]] 1
      contractEx fuelEx contractOldOutEx fuelOutEx 1000 empty_ex_units tx htx
  rw [hsort, hfind2] at hk
  have hk1 : k = 1 := (Option.some.inj hk).symm
  subst hk1
  exact ⟨tx, htx, by rw [hinputs, hsort], by rw [hinputs, hsort]; exact hfind2, hall⟩

/-- C8 witness: the same concrete redelegation mints the new token name
with quantity +1 and burns the old token name with quantity -1 in one mint
map, and carries the unregister-then-register certificate pair. -/
theorem redelegate_mint_burn_certs_witness :
    ∃ tx, redelegate_builder extEx .testnet [1] [5] [2] pZero [] [[1]] 1
        contractEx fuelEx contractOldOutEx fuelOutEx 1000 empty_ex_units = some tx ∧
      tx.transactionBody.mint =
        some [([5], [((govLiteral ++ [9] : Bytes), (1 : Int)), (([7] : Bytes), (-1 : Int))])] ∧
      tx.transactionBody.certificates =
        some [Certificate.unRegDRepCert (.scripthash [5]) 2000000,
              Certificate.regDRepCert (.scripthash [5]) 2000000 none] := by
  have hsort : sortInputs [contractEx, fuelEx] = [fuelEx, contractEx] := by decide
  have hfind2 : List.findIdx? (fun i => i = contractEx) [fuelEx, contractEx] = some 1 := by
    decide
  have hsome : (redelegate_builder extEx .testnet [1] [5] [2] pZero [] [[1]] 1
      contractEx fuelEx contractOldOutEx fuelOutEx 1000 empty_ex_units).isSome = true := by
    simp [redelegate_builder, build_rules, rulesTerm, find_contract_token, contractOldOutEx,
      fuelOutEx, new_min_value_output, extEx, pZero, natCeil_zero, lovelace_of, subtract,
      hsort, hfind2, empty_ex_units, script_integrity_hash, contract_output_at]
  obtain ⟨tx, htx⟩ := Option.isSome_iff_exists.mp hsome
  obtain ⟨rules, newName, oldName, hrules, hold, hmint, hcerts⟩ :=
    redelegate_mint_burn_certs extEx .testnet [1] [5] [2] pZero [] [[1]] 1
      contractEx fuelEx contractOldOutEx fuelOutEx 1000 empty_ex_units tx htx
  have hbr : build_rules extEx.hashCbor [[1]] 1 =
      some (rulesTerm [[1]], govLiteral ++ [9]) := rfl
  have hpair := Option.some.inj (hbr.symm.trans hrules)
  have hnew : newName = govLiteral ++ [9] := (congrArg Prod.snd hpair).symm
  have hfc : find_contract_token contractOldOutEx.value = some [7] := rfl
  have hON : oldName = [7] := (Option.some.inj (hfc.symm.trans hold)).symm
  subst hnew
  subst hON
  exact ⟨tx, htx, hmint, by rw [hcerts]; rfl⟩

/-- C10 witness: the concrete assign-stake run at fee 170 000 from a
10 000 000-lovelace fuel UTxO. -/
theorem assign_stake_example_witness :
    ∃ tx vkh, assign_stake_builder extEx [5] fuelEx fuelOutEx 170000 empty_ex_units =
        some tx ∧
      tx.transactionBody.outputs.map (fun o => lovelace_of o.value) = [7830000] ∧
      tx.transactionBody.certificates =
        some [Certificate.voteRegDeleg (.addrKeyhash vkh) (.script [5]) 2000000] := by
  have hsome : (assign_stake_builder extEx [5] fuelEx fuelOutEx 170000
      empty_ex_units).isSome = true := by decide
  obtain ⟨tx, htx⟩ := Option.isSome_iff_exists.mp hsome
  obtain ⟨hmap, vkh, hcerts⟩ :=
    assign_stake_example extEx [5] fuelEx fuelOutEx empty_ex_units tx rfl htx
  exact ⟨tx, vkh, htx, by rw [hmap], hcerts⟩

/-- C9 counterexample: a concrete assign-stake build carries no total
collateral at all (the field is unset), while the claim's formula would
demand `some (ceil(fee * collateral_percent))` — assign-stake sets no
collateral fields, unlike the other three assembly functions. -/
theorem builders_collateral_counterexample :
    Option.map (fun tx => tx.transactionBody.totalCollateral)
      (assign_stake_builder extEx [5] fuelEx fuelOutEx 100 empty_ex_units) = some none ∧
    (some (natCeil ((100 : ℚ) * pZero.collateralPercent)) : Option Nat) ≠ none := by
  exact ⟨by decide, by simp⟩

end PD
